import Mathlib

/-!
Verification of the semantic-search indexing pipeline of this repository:
the document chunker (`obsidian_loader.chunk_text`), the document processor,
the embedding generator, the Pinecone manager (index creation, batched
upsert) and the search facade (`full-script.py`), embedded shallowly.

Machine text is modelled as `List α` (a sequence of characters) where the
source slices it, and as `String` where the source only stores or compares
it.  External services (the embedding model, the vector store) are modelled
as explicit oracle functions passed to each operation, mirroring the way
the source calls into opaque client libraries.
-/

namespace Pipeline

/-! ### Python slice semantics

`pySlice text a b` is Python's `text[a:b]` for integer bounds: a negative
bound counts from the end of the sequence, and both bounds are clamped to
`[0, len]`.  The elements kept are those at positions `a' ≤ i < b'`. -/

def pyIdx (n : Nat) (i : Int) : Nat :=
  if i < 0 then ((n : Int) + i).toNat else min i.toNat n

def pySlice {α : Type} (text : List α) (a b : Int) : List α :=
  (text.take (pyIdx text.length b)).drop (pyIdx text.length a)

/-! ### The chunker (`obsidian_loader.py`, `chunk_text`)

The source is a `while start < len(text)` loop appending `text[start:end]`
and advancing `start` by `chunk_size - overlap`.  Since the loop does not
terminate for every parameter choice, it is embedded with an explicit fuel
argument: `none` means the fuel ran out with the loop still running.
`start`, `chunk_size` and `overlap` are Python integers, hence `Int`. -/

def chunkTextAux {α : Type} (text : List α) (chunk_size overlap : Int) :
    Nat → Int → Option (List (List α))
  | 0, _ => none
  | fuel + 1, start =>
    if start < (text.length : Int) then
      match chunkTextAux text chunk_size overlap fuel (start + (chunk_size - overlap)) with
      | none => none
      | some rest => some (pySlice text start (start + chunk_size) :: rest)
    else
      some []

/-- The chunker with the fuel budget `length + 1`, which suffices whenever
the loop terminates at all (the start position moves by at least one per
iteration when `overlap < chunk_size`). -/
def chunk_text {α : Type} (text : List α) (chunk_size : Int := 1000)
    (overlap : Int := 200) : Option (List (List α)) :=
  chunkTextAux text chunk_size overlap (text.length + 1) 0

/-! ### Data model (`full-script.py`)

Embedding components are an arbitrary scalar type `F` (floats in the
source; no claim depends on float arithmetic, only on which vectors are
passed around and how long they are).  The md5 content hash is an opaque
function passed in as a parameter.  Float-valued throttling knobs of the
source `Config` (`upload_delay`, `retry_delay`) are timing policy with no
bearing on any claim and are omitted. -/

/-- Metadata attached to a `Document` by `Document.__post_init__`: the
content hash and text length recorded for dedup detection (`filename` and
`category` are duplicated from the document itself). -/
structure DocMeta where
  text_hash : String
  text_length : Nat
  deriving DecidableEq, Repr

/-- The `Document` dataclass.  `embedding` is `none` until the embedding
generator runs. -/
structure Document (F : Type) where
  id : String
  text : List Char
  filename : String
  full_path : String
  category : String := "obsidian_note"
  embedding : Option (List F) := none
  metadata : DocMeta
  deriving DecidableEq, Repr

/-- Building a `Document` runs `__post_init__`, which records the content
hash and the text length in the metadata. -/
def mkDocument (F : Type) (hash : List Char → String) (id : String) (text : List Char)
    (filename full_path : String) (category : String := "obsidian_note") : Document F :=
  { id := id, text := text, filename := filename, full_path := full_path,
    category := category, embedding := none,
    metadata := { text_hash := hash text, text_length := text.length } }

/-- The `Config` dataclass of `full-script.py`.  `dimension` and
`batch_size` come from `int(os.getenv(...))` and may be any integer before
validation, hence `Int`. -/
structure Config where
  pinecone_api_key : String
  index_name : String := "semantic-search-demo"
  dimension : Int := 384
  metric : String := "cosine"
  cloud : String := "aws"
  region : String := "us-west-2"
  vault_path : String := "~/Markdown"
  max_text_length : Nat := 3000
  chunk_overlap : Nat := 200
  batch_size : Int := 50
  max_workers : Nat := 4
  model_name : String := "all-MiniLM-L6-v2"
  max_retries : Nat := 3
  deriving DecidableEq, Repr

/-- `Config.__post_init__`: validation run at construction, before any
network call.  `expanduser` and `path_exists` model `os.path.expanduser`
and `os.path.exists`; an empty API key is falsy in Python. -/
def post_init (expanduser : String → String) (path_exists : String → Bool)
    (c : Config) : Except String Config :=
  if c.pinecone_api_key = "" then
    .error "PINECONE_API_KEY is required"
  else if c.dimension ≤ 0 then
    .error "Dimension must be positive"
  else if c.batch_size ≤ 0 ∨ c.batch_size > 100 then
    .error "Batch size must be between 1 and 100"
  else
    let vp := expanduser c.vault_path
    if ¬ (path_exists vp = true) then
      .error ("Vault path does not exist: " ++ vp)
    else
      .ok { c with vault_path := vp }

/-- `DocumentProcessor._process_file` from the point after the file body
has been read and stripped: an empty body yields no document; a body
longer than `max_text_length` is cut down to its first `max_text_length`
characters; the result is a single `Document` with id `md_<index+1>`. -/
def process_file (F : Type) (hash : List Char → String) (max_text_length : Nat)
    (content : List Char) (index : Nat) (relative_filename full_path : String) :
    Option (Document F) :=
  if content = [] then
    none
  else
    let content := if content.length > max_text_length then content.take max_text_length
      else content
    some (mkDocument F hash ("md_" ++ toString (index + 1)) content relative_filename full_path)

/-- `EmbeddingGenerator.generate_embeddings`: extract the texts, encode
them in one model call, then assign the vectors back positionally
(`zip` truncates like Python's; documents beyond the encoded prefix keep
their previous `embedding`, and the full original list is returned). -/
def generate_embeddings {F : Type} (encode : List (List Char) → List (List F))
    (documents : List (Document F)) : List (Document F) :=
  let texts := documents.map (fun d => d.text)
  let embeddings := encode texts
  (documents.zip embeddings).map (fun p => { p.1 with embedding := some p.2 }) ++
    documents.drop embeddings.length

/-- Python truthiness of `doc.embedding`: `not doc.embedding` is true for
`None` and for an empty list. -/
def embFalsy {F : Type} : Option (List F) → Bool
  | none => true
  | some [] => true
  | some (_ :: _) => false

/-- Metadata dictionary built by `PineconeManager._prepare_vectors` for one
vector (text capped at 1000 characters for the store's size limits). -/
structure VecMeta where
  text : List Char
  filename : String
  category : String
  text_hash : String
  text_length : Nat
  deriving DecidableEq, Repr

/-- One `(id, embedding, metadata)` tuple handed to the store. -/
structure PVector (F : Type) where
  id : String
  values : List F
  metadata : VecMeta
  deriving DecidableEq, Repr

def prep_metadata {F : Type} (doc : Document F) : VecMeta :=
  { text := doc.text.take 1000, filename := doc.filename, category := doc.category,
    text_hash := doc.metadata.text_hash, text_length := doc.metadata.text_length }

/-- `PineconeManager._prepare_vectors`: documents whose `embedding` is
falsy (missing or empty) are skipped with a warning; every other document
contributes `(doc.id, doc.embedding, metadata)` with the embedding passed
through verbatim. -/
def prepare_vectors {F : Type} (documents : List (Document F)) : List (PVector F) :=
  documents.filterMap (fun doc =>
    match doc.embedding with
    | none => none
    | some [] => none
    | some emb => some { id := doc.id, values := emb, metadata := prep_metadata doc })

/-- `total_batches` as computed by `upsert_documents`:
`len(vectors) // batch_size + (1 if len(vectors) % batch_size else 0)`. -/
def total_batches (n batch_size : Nat) : Nat :=
  n / batch_size + (if n % batch_size ≠ 0 then 1 else 0)

/-- The batch slices `vectors[i:i+batch_size]` for `i in
range(0, len(vectors), batch_size)`, as a structural recursion: the fuel
argument only bounds the number of loop steps (the list shrinks by at
least one element per step whenever `batch_size ≥ 1`, so fuel equal to the
list length is always enough; Python's `range` rejects a zero step, and
`Config` validation guarantees `batch_size ≥ 1`). -/
def toBatchesF {V : Type} (batch_size : Nat) : Nat → List V → List (List V)
  | _, [] => []
  | 0, _ :: _ => []
  | fuel + 1, v :: vs =>
    (v :: vs).take batch_size :: toBatchesF batch_size fuel (vs.drop (batch_size - 1))

def toBatches {V : Type} (batch_size : Nat) (l : List V) : List (List V) :=
  toBatchesF batch_size l.length l

/-- Observable outcome of one `upsert_documents` run: the two counters of
the source, plus the store-visible effects — every `index.upsert` call
issued as a `(batch_num, attempt)` pair, and the batches the store
accepted (committed). -/
structure UpsertOutcome (V : Type) where
  successful_batches : Nat
  failed_batches : List Nat
  calls : List (Nat × Nat)
  committed : List (List V)
  deriving DecidableEq, Repr

/-- The batch loop of `upsert_documents`, numbering batches from `n`.  The
store is the oracle `ok batch_num attempt`; the loop issues exactly one
call (the first attempt) per batch, counts it on success and records the
batch number on failure — a raised batch error is caught, never
re-raised, so the `tenacity` decorator around the whole method never
fires for a batch failure. -/
def runBatches {V : Type} (ok : Nat → Nat → Bool) : Nat → List (List V) → UpsertOutcome V
  | _, [] => { successful_batches := 0, failed_batches := [], calls := [], committed := [] }
  | n, b :: rest =>
    let r := runBatches ok (n + 1) rest
    if ok n 1 then
      { successful_batches := r.successful_batches + 1, failed_batches := r.failed_batches,
        calls := (n, 1) :: r.calls, committed := b :: r.committed }
    else
      { successful_batches := r.successful_batches, failed_batches := n :: r.failed_batches,
        calls := (n, 1) :: r.calls, committed := r.committed }

/-- `PineconeManager.upsert_documents` (index already initialised):
prepare the vectors, slice them into batches, run the loop, and report
`True` exactly when no batch failed. -/
def upsert_documents {F : Type} (ok : Nat → Nat → Bool) (batch_size : Nat)
    (documents : List (Document F)) : Bool × UpsertOutcome (PVector F) :=
  let vectors := prepare_vectors documents
  let out := runBatches ok 1 (toBatches batch_size vectors)
  (out.failed_batches.isEmpty, out)

/-- Identity of an index in the external store: dimension and metric are
fixed at creation. -/
structure IndexSpec where
  dimension : Int
  metric : String
  deriving DecidableEq, Repr

/-- The store's collection of indexes, by name. -/
abbrev StoreIndexes := List (String × IndexSpec)

/-- `pc.has_index(name)`. -/
def has_index (st : StoreIndexes) (name : String) : Bool :=
  st.any (fun p => p.1 == name)

/-- Result of `ensure_index_exists`: the store afterwards, the handle the
manager keeps (`pc.Index(name)` — identified by the index name), and
whether a `create_index` call was issued. -/
structure EnsureResult where
  store : StoreIndexes
  handle : String
  created : Bool
  deriving DecidableEq, Repr

/-- `PineconeManager.ensure_index_exists`: if an index with the configured
name exists it is reused as-is — its recorded dimension and metric are
never read, let alone compared with the requested ones; otherwise one is
created with the requested dimension and metric. -/
def ensure_index_exists (st : StoreIndexes) (index_name : String) (dimension : Int)
    (metric : String) : EnsureResult :=
  if has_index st index_name then
    { store := st, handle := index_name, created := false }
  else
    { store := (index_name, { dimension := dimension, metric := metric }) :: st,
      handle := index_name, created := true }

/-- One match of the store's query response, with its metadata
dictionary. -/
structure QMatch (F : Type) where
  id : String
  score : F
  metadata : List (String × String)
  deriving DecidableEq, Repr

/-- One formatted search result: `{id, score, filename, text, category}`. -/
structure SearchResult (F : Type) where
  id : String
  score : F
  filename : String
  text : String
  category : String
  deriving DecidableEq, Repr

/-- Python `dict.get(key, default)`. -/
def dictGet (m : List (String × String)) (k dflt : String) : String :=
  match m.find? (fun p => p.1 == k) with
  | none => dflt
  | some p => p.2

/-- Formatting of one match in `SemanticSearchManager.search`. -/
def format_match {F : Type} (m : QMatch F) : SearchResult F :=
  { id := m.id, score := m.score,
    filename := dictGet m.metadata "filename" "Unknown",
    text := dictGet m.metadata "text" "",
    category := dictGet m.metadata "category" "unknown" }

/-- `SemanticSearchManager.search`: the whole body sits in a
`try/except Exception` whose handler logs and returns `[]`.  `encode` and
`queryIndex` are the embedding model and the store's query call; an
`error` value models a raised exception. -/
def search {F : Type} (encode : String → Except String (List F))
    (queryIndex : List F → Nat → Except String (List (QMatch F)))
    (index_ready : Bool) (query : String) (top_k : Nat := 5) :
    List (SearchResult F) :=
  let body : Except String (List (SearchResult F)) := do
    if !index_ready then throw "Index not initialized"
    let emb ← encode query
    let ms ← queryIndex emb top_k
    pure (ms.map format_match)
  match body with
  | .ok results => results
  | .error _ => []

/-! ### Concrete sample documents used by witnesses and counterexamples -/

def docA : Document Nat :=
  mkDocument Nat (fun _ => "h-a") "doc-a" "alpha text".data "notes/a" "/vault/notes/a.md"

def docB : Document Nat :=
  { mkDocument Nat (fun _ => "h-b") "doc-b" "beta text".data "notes/b" "/vault/notes/b.md" with
    embedding := some [1] }

def docC : Document Nat :=
  { mkDocument Nat (fun _ => "h-c") "doc-c" "gamma text".data "notes/c" "/vault/notes/c.md" with
    embedding := some [2] }

/-- A document carrying a 4-component embedding against a configured
dimension of 3. -/
def docWide : Document Nat :=
  { mkDocument Nat (fun _ => "h-w") "doc-w" "wide text".data "notes/w" "/vault/notes/w.md" with
    embedding := some [1, 2, 3, 4] }

/-! ### Lemmas about the chunker -/

lemma chunkTextAux_stop {α : Type} (text : List α) (cs ov : Int) (fuel : Nat)
    (start : Int) (h : ¬ start < (text.length : Int)) :
    chunkTextAux text cs ov (fuel + 1) start = some [] := by
  simp [chunkTextAux, h]

lemma chunkTextAux_step {α : Type} (text : List α) (cs ov : Int) (fuel : Nat)
    (start : Int) (h : start < (text.length : Int)) :
    chunkTextAux text cs ov (fuel + 1) start =
      (chunkTextAux text cs ov fuel (start + (cs - ov))).map
        (fun rest => pySlice text start (start + cs) :: rest) := by
  simp only [chunkTextAux, h, if_pos]
  cases chunkTextAux text cs ov fuel (start + (cs - ov)) <;> simp

/-- With a positive step `chunk_size - overlap`, fuel exceeding the number
of positions left to traverse is enough for the loop to finish. -/
lemma chunkTextAux_isSome {α : Type} (text : List α) (cs ov : Int)
    (hstep : ov < cs) :
    ∀ fuel : Nat, ∀ start : Int,
      ((text.length : Int) - start).toNat < fuel →
      (chunkTextAux text cs ov fuel start).isSome = true := by
  intro fuel
  induction fuel with
  | zero => intro start h; omega
  | succ f ih =>
    intro start h
    by_cases hlt : start < (text.length : Int)
    · rw [chunkTextAux_step text cs ov f start hlt]
      have hrec : ((text.length : Int) - (start + (cs - ov))).toNat < f := by
        have h1 : (1 : Int) ≤ cs - ov := by omega
        omega
      have := ih (start + (cs - ov)) hrec
      cases hres : chunkTextAux text cs ov f (start + (cs - ov)) with
      | none => rw [hres] at this; simp at this
      | some rest => simp
    · rw [chunkTextAux_stop text cs ov f start hlt]; rfl

/-- When `overlap ≥ chunk_size` and the text is non-empty, the start
position never advances past the text, so no fuel budget finishes the
loop: the source loops forever. -/
lemma chunkTextAux_none {α : Type} (text : List α) (cs ov : Int)
    (hstep : cs ≤ ov) (hne : text ≠ []) :
    ∀ fuel : Nat, ∀ start : Int, start ≤ 0 →
      chunkTextAux text cs ov fuel start = none := by
  intro fuel
  induction fuel with
  | zero => intro start _; rfl
  | succ f ih =>
    intro start hstart
    have hlen : 0 < text.length := List.length_pos.mpr hne
    have hlt : start < (text.length : Int) := by
      have : (0 : Int) < (text.length : Int) := by exact_mod_cast hlen
      omega
    rw [chunkTextAux_step text cs ov f start hlt,
        ih (start + (cs - ov)) (by omega)]
    rfl

/-- Chunking any text of length 2500 with window 1000 and overlap 200:
the start position visits 0, 800, 1600 and 2400 (all below 2500), so the
loop emits four slices before stopping at 3200. -/
lemma chunk_text_len2500 {α : Type} (text : List α) (h : text.length = 2500) :
    chunk_text text 1000 200 =
      some [text.take 1000, (text.drop 800).take 1000, text.drop 1600, text.drop 2400] := by
  have hlen : (text.length : Int) = 2500 := by exact_mod_cast h
  have e0 : pySlice text 0 1000 = text.take 1000 := by
    simp [pySlice, pyIdx, h]
  have e800 : pySlice text 800 1800 = (text.drop 800).take 1000 := by
    simp [pySlice, pyIdx, h]
    rw [List.drop_take]
  have e1600 : pySlice text 1600 2600 = text.drop 1600 := by
    simp [pySlice, pyIdx, h]
    rw [← h, List.take_length]
  have e2400 : pySlice text 2400 3400 = text.drop 2400 := by
    simp [pySlice, pyIdx, h]
    rw [← h, List.take_length]
  unfold chunk_text
  rw [h]
  rw [show (2500 + 1 : Nat) = 2499 + 1 + 1 from rfl]
  rw [chunkTextAux_step text 1000 200 (2499 + 1) 0 (by rw [hlen]; norm_num)]
  rw [show (0 : Int) + (1000 - 200) = 800 by norm_num]
  rw [show (2499 + 1 : Nat) = 2498 + 1 + 1 from rfl]
  rw [chunkTextAux_step text 1000 200 (2498 + 1) 800 (by rw [hlen]; norm_num)]
  rw [show (800 : Int) + (1000 - 200) = 1600 by norm_num]
  rw [show (2498 + 1 : Nat) = 2497 + 1 + 1 from rfl]
  rw [chunkTextAux_step text 1000 200 (2497 + 1) 1600 (by rw [hlen]; norm_num)]
  rw [show (1600 : Int) + (1000 - 200) = 2400 by norm_num]
  rw [show (2497 + 1 : Nat) = 2496 + 1 + 1 from rfl]
  rw [chunkTextAux_step text 1000 200 (2496 + 1) 2400 (by rw [hlen]; norm_num)]
  rw [show (2400 : Int) + (1000 - 200) = 3200 by norm_num]
  rw [chunkTextAux_stop text 1000 200 2496 3200 (by rw [hlen]; norm_num)]
  norm_num [e0, e800, e1600, e2400]

/-! ### Lemmas about batching and the upsert loop -/

lemma toBatchesF_congr {V : Type} (bs : Nat) :
    ∀ (f g : Nat) (l : List V), l.length ≤ f → l.length ≤ g →
      toBatchesF bs f l = toBatchesF bs g l := by
  intro f
  induction f with
  | zero =>
    intro g l h1 _
    have : l = [] := List.length_eq_zero.mp (by omega)
    subst this
    cases g <;> rfl
  | succ f ih =>
    intro g l h1 h2
    cases l with
    | nil => cases g <;> rfl
    | cons v vs =>
      cases g with
      | zero => simp at h2
      | succ g =>
        simp only [toBatchesF]
        rw [ih g (vs.drop (bs - 1)) (by simp [List.length_drop]; simp at h1; omega)
          (by simp [List.length_drop]; simp at h2; omega)]

lemma toBatchesF_nil {V : Type} (bs f : Nat) : toBatchesF (V := V) bs f [] = [] := by
  cases f <;> rfl

lemma toBatches_nil {V : Type} (bs : Nat) : toBatches (V := V) bs [] = [] := by
  simp [toBatches, toBatchesF_nil]

lemma toBatches_cons {V : Type} (bs : Nat) (v : V) (vs : List V) :
    toBatches bs (v :: vs) = (v :: vs).take bs :: toBatches bs (vs.drop (bs - 1)) := by
  unfold toBatches
  simp only [List.length_cons, toBatchesF]
  rw [toBatchesF_congr bs vs.length (vs.drop (bs - 1)).length (vs.drop (bs - 1))
    (by simp [List.length_drop]) le_rfl]

/-- Concatenating the batches gives back the vector list in order: the
partition is consecutive and order-preserving. -/
lemma toBatches_flatten {V : Type} (bs : Nat) (hbs : 1 ≤ bs) (l : List V) :
    (toBatches bs l).flatten = l := by
  obtain ⟨k, rfl⟩ : ∃ k, bs = k + 1 := ⟨bs - 1, by omega⟩
  generalize hn : l.length = n
  induction n using Nat.strong_induction_on generalizing l with
  | _ n ih =>
    cases l with
    | nil => simp [toBatches_nil]
    | cons v vs =>
      rw [toBatches_cons, List.flatten_cons]
      have hlen : (vs.drop (k + 1 - 1)).length < n := by
        simp only [List.length_drop]
        simp only [List.length_cons] at hn
        omega
      rw [ih _ hlen _ rfl]
      simp only [Nat.add_sub_cancel]
      rw [List.take_succ_cons]
      simp [List.take_append_drop]

lemma toBatches_mem_length {V : Type} (bs : Nat) (l : List V) :
    ∀ b ∈ toBatches bs l, b.length ≤ bs := by
  generalize hn : l.length = n
  induction n using Nat.strong_induction_on generalizing l with
  | _ n ih =>
    cases l with
    | nil => intro b hb; simp [toBatches_nil] at hb
    | cons v vs =>
      rw [toBatches_cons]
      intro b hb
      rcases List.mem_cons.mp hb with h | h
      · subst h; exact List.length_take_le bs _
      · have hlen : (vs.drop (bs - 1)).length < n := by
          simp only [List.length_drop]
          simp only [List.length_cons] at hn
          omega
        exact ih _ hlen _ rfl b h

lemma total_batches_zero (bs : Nat) : total_batches 0 bs = 0 := by
  simp [total_batches]

lemma total_batches_step (n bs : Nat) (hbs : 1 ≤ bs) (hn : 1 ≤ n) :
    total_batches n bs = 1 + total_batches (n - bs) bs := by
  rcases le_or_lt bs n with h | h
  · obtain ⟨m, rfl⟩ : ∃ m, n = m + bs := ⟨n - bs, by omega⟩
    unfold total_batches
    rw [Nat.add_div_right _ (by omega), Nat.add_mod_right, Nat.add_sub_cancel]
    omega
  · have h1 : n / bs = 0 := Nat.div_eq_of_lt h
    have h2 : n % bs = n := Nat.mod_eq_of_lt h
    have h3 : n - bs = 0 := by omega
    unfold total_batches
    rw [h1, h2, h3]
    have hne : n ≠ 0 := by omega
    simp [hne]

/-- The source's `total_batches` expression is the ceiling of
`n / batch_size`. -/
lemma total_batches_ceil (n bs : Nat) (hbs : 1 ≤ bs) :
    total_batches n bs = (n + bs - 1) / bs := by
  have key : bs * (n / bs) + n % bs = n := Nat.div_add_mod n bs
  have hr : n % bs < bs := Nat.mod_lt _ (by omega)
  rcases Nat.eq_zero_or_pos (n % bs) with hr0 | hr1
  · have hn : n + bs - 1 = bs * (n / bs) + (bs - 1) := by
      generalize bs * (n / bs) = t at key ⊢
      omega
    rw [hn, Nat.mul_add_div (by omega),
      Nat.div_eq_of_lt (show bs - 1 < bs by omega)]
    unfold total_batches
    rw [hr0]
    simp
  · have hn : n + bs - 1 = bs * (n / bs + 1) + (n % bs - 1) := by
      rw [Nat.mul_add, Nat.mul_one]
      generalize bs * (n / bs) = t at key ⊢
      omega
    rw [hn, Nat.mul_add_div (by omega),
      Nat.div_eq_of_lt (show n % bs - 1 < bs by omega)]
    unfold total_batches
    have hne : n % bs ≠ 0 := by omega
    simp [hne]

/-- The loop visits `total_batches` batches. -/
lemma toBatches_length {V : Type} (bs : Nat) (hbs : 1 ≤ bs) (l : List V) :
    (toBatches bs l).length = total_batches l.length bs := by
  generalize hn : l.length = n
  induction n using Nat.strong_induction_on generalizing l with
  | _ n ih =>
    cases l with
    | nil =>
      simp only [List.length_nil] at hn
      simp [toBatches_nil, ← hn, total_batches_zero]
    | cons v vs =>
      rw [toBatches_cons]
      simp only [List.length_cons] at hn ⊢
      have hlen : (vs.drop (bs - 1)).length < n := by
        simp only [List.length_drop]; omega
      rw [ih _ hlen _ rfl]
      simp only [List.length_drop]
      subst hn
      rw [total_batches_step (vs.length + 1) bs hbs (by omega)]
      have heq : vs.length + 1 - bs = vs.length - (bs - 1) := by omega
      rw [heq]
      omega

/-- Every batch gets exactly one store call, counted either as a success
or as a failure. -/
lemma runBatches_counts {V : Type} (ok : Nat → Nat → Bool) :
    ∀ (n : Nat) (bl : List (List V)),
      (runBatches ok n bl).successful_batches + (runBatches ok n bl).failed_batches.length
        = bl.length := by
  intro n bl
  induction bl generalizing n with
  | nil => rfl
  | cons b rest ih =>
    simp only [runBatches]
    by_cases h : ok n 1 = true
    · simp only [h, if_pos]
      have := ih (n + 1)
      simp only [List.length_cons]
      omega
    · simp only [h, if_neg, Bool.not_eq_true]
      have := ih (n + 1)
      simp only [List.length_cons, List.length_cons]
      simp only [List.length_cons] at *
      omega

/-- The call log: one call per batch, in order, always the first (and
only) attempt — nothing is ever retried or re-sent. -/
lemma runBatches_calls {V : Type} (ok : Nat → Nat → Bool) :
    ∀ (n : Nat) (bl : List (List V)),
      (runBatches ok n bl).calls = (List.enumFrom n bl).map (fun p => (p.1, 1)) := by
  intro n bl
  induction bl generalizing n with
  | nil => rfl
  | cons b rest ih =>
    simp only [runBatches, List.enumFrom_cons, List.map_cons]
    by_cases h : ok n 1 = true
    · simp [h, ih (n + 1)]
    · simp only [h]
      simp [ih (n + 1)]

/-- The committed batches are exactly those whose single call the store
accepted, in order. -/
lemma runBatches_committed {V : Type} (ok : Nat → Nat → Bool) :
    ∀ (n : Nat) (bl : List (List V)),
      (runBatches ok n bl).committed
        = ((List.enumFrom n bl).filter (fun p => ok p.1 1)).map (fun p => p.2) := by
  intro n bl
  induction bl generalizing n with
  | nil => rfl
  | cons b rest ih =>
    simp only [runBatches, List.enumFrom_cons, List.filter_cons]
    by_cases h : ok n 1 = true
    · simp [h, ih (n + 1)]
    · simp only [h]
      simp [ih (n + 1)]

/-- The failed-batch list collects exactly the batch numbers whose call
the store rejected, in order. -/
lemma runBatches_failed {V : Type} (ok : Nat → Nat → Bool) :
    ∀ (n : Nat) (bl : List (List V)),
      (runBatches ok n bl).failed_batches
        = ((List.enumFrom n bl).filter (fun p => !ok p.1 1)).map (fun p => p.1) := by
  intro n bl
  induction bl generalizing n with
  | nil => rfl
  | cons b rest ih =>
    simp only [runBatches, List.enumFrom_cons, List.filter_cons]
    by_cases h : ok n 1 = true
    · simp [h, ih (n + 1)]
    · simp only [h]
      simp [ih (n + 1)]

/-! ### Lemmas about the embedding generator -/

lemma gen_emb_length {F : Type} (encode : List (List Char) → List (List F))
    (docs : List (Document F)) :
    (generate_embeddings encode docs).length = docs.length := by
  unfold generate_embeddings
  simp only [List.length_append, List.length_map, List.length_zip, List.length_drop]
  omega

lemma gen_emb_get {F : Type} :
    ∀ (ds : List (Document F)) (es : List (List F)) (i : Nat) (d : Document F) (e : List F),
      ds.get? i = some d → es.get? i = some e →
      (((ds.zip es).map (fun (p : Document F × List F) => { p.1 with embedding := some p.2 }))
          ++ ds.drop es.length).get? i
        = some { d with embedding := some e } := by
  intro ds
  induction ds with
  | nil => intro es i d e hd _; simp at hd
  | cons d0 dtl ih =>
    intro es i d e hd he
    cases es with
    | nil => simp at he
    | cons e0 etl =>
      cases i with
      | zero =>
        rw [List.get?_cons_zero] at hd
        rw [List.get?_cons_zero] at he
        cases hd; cases he
        rfl
      | succ i =>
        rw [List.get?_cons_succ] at hd
        rw [List.get?_cons_succ] at he
        have step : (((d0 :: dtl).zip (e0 :: etl)).map
              (fun (p : Document F × List F) => { p.1 with embedding := some p.2 }))
            ++ (d0 :: dtl).drop (e0 :: etl).length
          = ({ d0 with embedding := some e0 })
            :: (((dtl.zip etl).map
                (fun (p : Document F × List F) => { p.1 with embedding := some p.2 }))
              ++ dtl.drop etl.length) := by
          simp [List.zip_cons_cons]
        rw [step, List.get?_cons_succ]
        exact ih etl i d e hd he

end Pipeline

namespace Claims

open Pipeline

/-- Claim C3, counterexample: chunking a text of length 2500 with window
1000 and overlap 200 produces four chunks, not three — the loop emits a
final slice `[2400:2500]` because `2400 < 2500` still holds after the
third chunk. -/
theorem C3_counterexample :
    ((chunk_text (List.replicate 2500 (0 : Nat)) 1000 200).map List.length) = some 4 ∧
    ((chunk_text (List.replicate 2500 (0 : Nat)) 1000 200).map List.length) ≠ some 3 := by
  have h4 : ((chunk_text (List.replicate 2500 (0 : Nat)) 1000 200).map List.length) = some 4 := by
    rw [chunk_text_len2500 (List.replicate 2500 (0 : Nat)) (List.length_replicate 2500 0)]
    rfl
  exact ⟨h4, by rw [h4]; decide⟩

/-- Claim C3, amended: chunking a text of length 2500 with window 1000 and
overlap 200 yields exactly 4 chunks, the slices `[0:1000]`, `[800:1800]`,
`[1600:2500]` and `[2400:2500]`, of lengths 1000, 1000, 900, 100 — each
within the window; the first two consecutive pairs overlap by exactly 200
characters, while the final pair overlaps by only 100 (the last chunk is
entirely contained in the previous one). -/
theorem C3_chunking_2500 {α : Type} (text : List α) (h : text.length = 2500) :
    chunk_text text 1000 200 =
      some [text.take 1000, (text.drop 800).take 1000, text.drop 1600, text.drop 2400] ∧
    [(text.take 1000).length, ((text.drop 800).take 1000).length,
      (text.drop 1600).length, (text.drop 2400).length] = [1000, 1000, 900, 100] ∧
    (text.take 1000).drop 800 = ((text.drop 800).take 1000).take 200 ∧
    ((text.drop 800).take 1000).drop 800 = (text.drop 1600).take 200 ∧
    (text.drop 1600).drop 800 = text.drop 2400 := by
  refine ⟨chunk_text_len2500 text h, ?_, ?_, ?_, ?_⟩
  · simp [h]
  · rw [List.drop_take, List.take_take]
    norm_num
  · rw [List.drop_take, List.drop_drop]
  · rw [List.drop_drop]

/-- Witness for C3_chunking_2500 at the concrete text of 2500 zeros. -/
theorem C3_witness :
    chunk_text (List.replicate 2500 (0 : Nat)) 1000 200 =
      some [List.replicate 1000 0, List.replicate 1000 0,
        List.replicate 900 0, List.replicate 100 0] := by
  have h := (C3_chunking_2500 (List.replicate 2500 (0 : Nat)) (List.length_replicate 2500 0)).1
  rw [List.take_replicate, List.drop_replicate, List.take_replicate,
    List.drop_replicate, List.drop_replicate] at h
  norm_num at h
  exact h

/-- Claim C5: for any store behaviour, batch size ≥ 1 and document list,
`upsert_documents` partitions the prepared vectors into consecutive
order-preserving batches of at most `batch_size` vectors,
`total_batches = ⌈n / batch_size⌉`; on completion
`successful_batches + failed_batches = total_batches`; the call reports
success iff every batch succeeded; and the committed store state holds
exactly the batches whose call succeeded — succeeded batches stay
committed when the call reports failure. -/
theorem C5_upsert_partition {F : Type} (ok : Nat → Nat → Bool) (bs : Nat)
    (docs : List (Document F)) (hbs : 1 ≤ bs) :
    (toBatches bs (prepare_vectors docs)).flatten = prepare_vectors docs ∧
    (∀ b ∈ toBatches bs (prepare_vectors docs), b.length ≤ bs) ∧
    (toBatches bs (prepare_vectors docs)).length
      = total_batches (prepare_vectors docs).length bs ∧
    total_batches (prepare_vectors docs).length bs
      = ((prepare_vectors docs).length + bs - 1) / bs ∧
    (upsert_documents ok bs docs).2.successful_batches
        + (upsert_documents ok bs docs).2.failed_batches.length
      = total_batches (prepare_vectors docs).length bs ∧
    ((upsert_documents ok bs docs).1 = true ↔
      (upsert_documents ok bs docs).2.failed_batches = []) ∧
    (upsert_documents ok bs docs).2.committed
      = ((List.enumFrom 1 (toBatches bs (prepare_vectors docs))).filter
          (fun p => ok p.1 1)).map (fun p => p.2) := by
  refine ⟨toBatches_flatten bs hbs _, toBatches_mem_length bs _,
    toBatches_length bs hbs _, total_batches_ceil _ bs hbs, ?_, ?_, ?_⟩
  · show (runBatches ok 1 (toBatches bs (prepare_vectors docs))).successful_batches
        + (runBatches ok 1 (toBatches bs (prepare_vectors docs))).failed_batches.length
      = total_batches (prepare_vectors docs).length bs
    rw [runBatches_counts, toBatches_length bs hbs]
  · show (runBatches ok 1 (toBatches bs (prepare_vectors docs))).failed_batches.isEmpty
        = true
      ↔ (runBatches ok 1 (toBatches bs (prepare_vectors docs))).failed_batches = []
    simp [List.isEmpty_iff]
  · exact runBatches_committed ok 1 _

/-- Witness for C5_upsert_partition: two one-vector batches against an
always-accepting store. -/
theorem C5_witness :
    (toBatches 1 (prepare_vectors [docB, docC])).flatten = prepare_vectors [docB, docC] :=
  (C5_upsert_partition (fun _ _ => true) 1 [docB, docC] (by norm_num)).1

/-- Claim C4, counterexample: batch 2 of 2 fails transiently (the store
would accept it from the second attempt on: `ok 2 2 = true`), yet the
operation issues exactly one call per batch — `calls = [(1,1), (2,1)]` —
records batch 2 as failed and reports overall failure.  No batch is ever
retried, contradicting the claimed bounded-retry of the failing batch. -/
theorem C4_counterexample :
    (upsert_documents (fun b a => !(b == 2 && a == 1)) 1 [docB, docC]).1 = false ∧
    (upsert_documents (fun b a => !(b == 2 && a == 1)) 1 [docB, docC]).2.calls
      = [(1, 1), (2, 1)] ∧
    (upsert_documents (fun b a => !(b == 2 && a == 1)) 1 [docB, docC]).2.failed_batches
      = [2] ∧
    (upsert_documents (fun b a => !(b == 2 && a == 1)) 1 [docB, docC]).2.successful_batches
      = 1 ∧
    (fun (b a : Nat) => !(b == 2 && a == 1)) 2 2 = true := by
  decide

/-- Claim C4, amended: when a batch fails transiently the operation
records the failure and moves on — the failing batch is never retried
(the per-batch `except` swallows the error, so the retry decorator never
fires), and every batch is sent exactly once, so batches that already
succeeded are indeed never re-sent: the call log is exactly one
first-attempt call per batch, in order. -/
theorem C4_no_retry {F : Type} (ok : Nat → Nat → Bool) (bs : Nat)
    (docs : List (Document F)) (hbs : 1 ≤ bs) :
    (upsert_documents ok bs docs).2.calls
      = (List.enumFrom 1 (toBatches bs (prepare_vectors docs))).map (fun p => (p.1, 1)) :=
  runBatches_calls ok 1 _

/-- Witness for C4_no_retry on the failing-batch scenario of the
counterexample's shape (a distinct store oracle, so the two statements
stay independent). -/
theorem C4_witness :
    (upsert_documents (fun b _ => b ≠ 2) 1 [docB, docC]).2.calls
      = (List.enumFrom 1 (toBatches 1 (prepare_vectors [docB, docC]))).map
          (fun p => (p.1, 1)) :=
  C4_no_retry (fun b _ => b ≠ 2) 1 [docB, docC] (by norm_num)

/-- Claim C10: `chunk_text` terminates for every text when
`0 < overlap < chunk_size` (the fuel `length + 1` always suffices), while
for `overlap ≥ chunk_size` on a non-empty text the start position never
advances past the text and no fuel budget finishes the loop — the source
loops forever, so termination requires `overlap < chunk_size`. -/
theorem C10_chunk_text_termination {α : Type} (text : List α) (cs ov : Int) :
    (0 < ov → ov < cs → (chunk_text text cs ov).isSome = true) ∧
    (cs ≤ ov → text ≠ [] → ∀ fuel : Nat, chunkTextAux text cs ov fuel 0 = none) := by
  constructor
  · intro _ hlt
    exact chunkTextAux_isSome text cs ov hlt (text.length + 1) 0 (by omega)
  · intro hle hne fuel
    exact chunkTextAux_none text cs ov hle hne fuel 0 le_rfl

/-- Witness for C10_chunk_text_termination: with window 2 and overlap 1 the
chunker finishes on `[0, 1, 2]`; with window 2 and overlap 2 it never
finishes on `[0, 1]`. -/
theorem C10_witness :
    (chunk_text ([0, 1, 2] : List Nat) 2 1).isSome = true ∧
    chunkTextAux ([0, 1] : List Nat) 2 2 5 0 = none :=
  ⟨(C10_chunk_text_termination ([0, 1, 2] : List Nat) 2 1).1 (by norm_num) (by norm_num),
   (C10_chunk_text_termination ([0, 1] : List Nat) 2 2).2 (by norm_num) (by simp) 5⟩

/-- Claim C1, counterexample: with configured dimension 3, a document
carrying an embedding of length 4 (= dimension + 1) is not rejected:
`_prepare_vectors` forwards the 4-component vector unchanged (neither
truncated nor padded), `upsert_documents` sends it to the store — the call
reaches the store carrying the mismatched vector — and the operation
reports success instead of raising a fatal diagnostic. -/
theorem C1_counterexample :
    ([1, 2, 3, 4] : List Nat).length = 3 + 1 ∧
    (prepare_vectors [docWide]).map (fun v => (v.id, v.values))
      = [("doc-w", [1, 2, 3, 4])] ∧
    (upsert_documents (fun _ _ => true) 50 [docWide]).1 = true ∧
    (upsert_documents (fun _ _ => true) 50 [docWide]).2.committed.flatten.map
        (fun v => v.values)
      = [[1, 2, 3, 4]] := by
  decide

/-- Claim C1, amended: `upsert` performs no dimension check at all — every
document whose embedding is non-empty has that embedding forwarded to the
store verbatim, never truncated or padded, but also never validated
against the configured dimension; only documents whose embedding is
missing (or empty, which is falsy in Python) are skipped.  Conversely,
every vector handed to the store is some document's embedding unchanged. -/
theorem C1_no_dimension_check {F : Type} (docs : List (Document F)) :
    (∀ d ∈ docs, ∀ e : List F, d.embedding = some e → e ≠ [] →
      ({ id := d.id, values := e, metadata := prep_metadata d } : PVector F)
        ∈ prepare_vectors docs) ∧
    (∀ v ∈ prepare_vectors docs, ∃ d ∈ docs, d.embedding = some v.values) := by
  constructor
  · intro d hd e hemb hne
    refine List.mem_filterMap.mpr ⟨d, hd, ?_⟩
    rw [hemb]
    cases e with
    | nil => exact absurd rfl hne
    | cons c cs => rfl
  · intro v hv
    obtain ⟨d, hd, hf⟩ := List.mem_filterMap.mp hv
    refine ⟨d, hd, ?_⟩
    cases hemb : d.embedding with
    | none => rw [hemb] at hf; exact absurd hf (by simp)
    | some e =>
      cases e with
      | nil => rw [hemb] at hf; exact absurd hf (by simp)
      | cons c cs =>
        rw [hemb] at hf
        cases hf
        rfl

/-- Witness for C1_no_dimension_check: the 4-component embedding of
`docWide` is forwarded unchanged. -/
theorem C1_witness :
    ({ id := docWide.id, values := [1, 2, 3, 4], metadata := prep_metadata docWide }
        : PVector Nat)
      ∈ prepare_vectors [docWide] :=
  (C1_no_dimension_check [docWide]).1 docWide (by simp) [1, 2, 3, 4] rfl (by simp)

/-- Claim C2, counterexample: with configured maximum 5, the six-character
body "abcdef" is not split into chunks — `_process_file` produces a single
document holding only the first five characters, and the final character
is dropped. -/
theorem C2_counterexample :
    ("abcdef".data.length = 6) ∧
    (process_file Nat (fun _ => "h") 5 "abcdef".data 0 "f" "/f").map (fun d => d.text)
      = some "abcde".data ∧
    "abcde".data ≠ "abcdef".data := by
  decide

/-- Claim C2, amended: the full-script loader truncates instead of
chunking — a non-empty body longer than the configured
`max_text_length` becomes a single document whose text is exactly the
first `max_text_length` characters, so everything beyond that bound is
dropped (the overlapping chunker lives only in `obsidian_loader.py`,
outside this loader's path). -/
theorem C2_truncates {F : Type} (hash : List Char → String) (maxLen : Nat)
    (content : List Char) (index : Nat) (fn fp : String)
    (hne : content ≠ []) (hlong : maxLen < content.length) :
    (process_file F hash maxLen content index fn fp).map (fun d => d.text)
      = some (content.take maxLen) ∧
    (content.take maxLen).length = maxLen := by
  constructor
  · unfold process_file
    rw [if_neg hne]
    simp only [Option.map_some]
    rw [if_pos hlong]
    rfl
  · rw [List.length_take]
    omega

/-- Witness for C2_truncates at the concrete six-character body. -/
theorem C2_witness :
    (process_file Nat (fun _ => "h") 5 "abcdef".data 0 "f" "/f").map (fun d => d.text)
      = some ("abcdef".data.take 5) ∧
    ("abcdef".data.take 5).length = 5 :=
  C2_truncates (fun _ => "h") 5 "abcdef".data 0 "f" "/f" (by decide) (by decide)

/-- Claim C6, counterexample: a connection failure — an exception raised
by the embedding call or by the query call — does not propagate: the
`except` handler returns the empty list, indistinguishable from the
no-matches outcome. -/
theorem C6_counterexample :
    search (fun _ => Except.error "connection failure")
        (fun _ _ => Except.ok ([] : List (QMatch Nat))) true "query" 5 = [] ∧
    search (fun _ => Except.ok ([0] : List Nat))
        (fun _ _ => Except.error "connection failure") true "query" 5 = [] := by
  constructor <;> rfl

/-- Claim C6, amended: a store response with no matches makes `search`
return an empty list rather than raise; but a connection failure (an
exception from the embedding or query call) is caught by the
surrounding `try/except`, logged, and likewise returned as an empty
list — it does not propagate to the caller. -/
theorem C6_search_swallows {F : Type} (encode : String → Except String (List F))
    (queryIndex : List F → Nat → Except String (List (QMatch F)))
    (q : String) (k : Nat) :
    (∀ e : List F, encode q = .ok e → queryIndex e k = .ok [] →
      search encode queryIndex true q k = []) ∧
    (∀ msg, encode q = .error msg → search encode queryIndex true q k = []) ∧
    (∀ (e : List F) msg, encode q = .ok e → queryIndex e k = .error msg →
      search encode queryIndex true q k = []) := by
  refine ⟨?_, ?_, ?_⟩
  · intro e h1 h2
    simp only [search, Bool.not_true, Bind.bind, Except.bind, Functor.map, Except.map,
      h1, h2, if_false]
    rfl
  · intro msg h1
    simp only [search, Bool.not_true, Bind.bind, Except.bind, Functor.map, Except.map,
      h1, if_false]
    rfl
  · intro e msg h1 h2
    simp only [search, Bool.not_true, Bind.bind, Except.bind, Functor.map, Except.map,
      h1, h2, if_false]
    rfl

/-- Witness for C6_search_swallows: a query call raising against an
otherwise healthy embedding path yields the empty list. -/
theorem C6_witness :
    search (fun _ => Except.ok ([3] : List Nat)) (fun _ _ => Except.error "boom")
      true "q" 5 = [] :=
  (C6_search_swallows (fun _ => Except.ok ([3] : List Nat))
    (fun _ _ => Except.error "boom") "q" 5).2.2 [3] "boom" rfl rfl

/-- Claim C7: `ensure_index_exists` is idempotent — when an index with the
requested name exists, no create call is issued, the store is unchanged
and the existing index is reused by name, with no verification of its
recorded dimension or metric against the requested ones (the second
conjunct holds for an arbitrary existing spec); running it a second time
with identical parameters performs no create and returns the same
handle over the same store. -/
theorem C7_ensure_index_idempotent (st : StoreIndexes) (name : String) (dim : Int)
    (metric : String) :
    (has_index st name = true →
      ensure_index_exists st name dim metric
        = { store := st, handle := name, created := false }) ∧
    (∀ spec : IndexSpec, ∀ rest : StoreIndexes,
      ensure_index_exists ((name, spec) :: rest) name dim metric
        = { store := (name, spec) :: rest, handle := name, created := false }) ∧
    ((ensure_index_exists (ensure_index_exists st name dim metric).store name dim metric).created
        = false ∧
      (ensure_index_exists (ensure_index_exists st name dim metric).store name dim metric).handle
        = (ensure_index_exists st name dim metric).handle ∧
      (ensure_index_exists (ensure_index_exists st name dim metric).store name dim metric).store
        = (ensure_index_exists st name dim metric).store) := by
  refine ⟨?_, ?_, ?_⟩
  · intro h
    simp [ensure_index_exists, h]
  · intro spec rest
    have h : has_index ((name, spec) :: rest) name = true := by simp [has_index]
    simp [ensure_index_exists, h]
  · by_cases h : has_index st name = true
    · simp [ensure_index_exists, h]
    · have h2 : has_index ((name, ⟨dim, metric⟩) :: st) name = true := by simp [has_index]
      simp [ensure_index_exists, h, h2]

/-- Witness for C7_ensure_index_idempotent: an existing index of dimension
768 and metric "euclidean" is silently reused when dimension 384 and
metric "cosine" are requested. -/
theorem C7_witness :
    ensure_index_exists [("semantic-search-demo", ⟨768, "euclidean"⟩)]
        "semantic-search-demo" 384 "cosine"
      = { store := [("semantic-search-demo", ⟨768, "euclidean"⟩)],
          handle := "semantic-search-demo", created := false } :=
  (C7_ensure_index_idempotent [("semantic-search-demo", ⟨768, "euclidean"⟩)]
    "semantic-search-demo" 384 "cosine").2.1 ⟨768, "euclidean"⟩ []

/-- Claim C8: when the model returns one vector per input text,
`generate_embeddings` returns a list of the same length whose `i`-th
element is the `i`-th input document with its embedding populated by the
`i`-th encoded vector — batching neither reorders nor drops elements. -/
theorem C8_embedding_order {F : Type} (encode : List (List Char) → List (List F))
    (docs : List (Document F))
    (hlen : (encode (docs.map (fun d => d.text))).length = docs.length) :
    (generate_embeddings encode docs).length = docs.length ∧
    ∀ (i : Nat) (d : Document F), docs.get? i = some d →
      ∃ e : List F, (encode (docs.map (fun d => d.text))).get? i = some e ∧
        (generate_embeddings encode docs).get? i = some { d with embedding := some e } := by
  refine ⟨gen_emb_length encode docs, ?_⟩
  intro i d hd
  have hi : i < docs.length := by
    by_contra hge
    rw [List.get?_eq_none.mpr (by omega)] at hd
    exact absurd hd (by simp)
  cases hes : (encode (docs.map (fun d => d.text))).get? i with
  | none =>
    have := List.get?_eq_none.mp hes
    omega
  | some e =>
    refine ⟨e, rfl, ?_⟩
    have h := gen_emb_get docs (encode (docs.map (fun d => d.text))) i d e hd hes
    exact h

/-- Witness for C8_embedding_order with a one-document list and a model
returning one vector per text. -/
theorem C8_witness :
    (generate_embeddings (fun ts => ts.map (fun _ => ([7] : List Nat))) [docA]).length
      = 1 :=
  (C8_embedding_order (fun ts => ts.map (fun _ => ([7] : List Nat))) [docA] (by simp)).1

/-- Claim C9: configuration construction succeeds if and only if the API
credential is non-empty, the dimension is positive, the batch size lies
in [1, 100] and the (expanded) vault path exists on disk; each failing
condition produces its descriptive error, checked in the source's order,
all before any network call (`__post_init__` performs no I/O beyond the
path existence test). -/
theorem C9_config_validation (expanduser : String → String) (path_exists : String → Bool)
    (c : Config) :
    ((post_init expanduser path_exists c).isOk = true ↔
      (c.pinecone_api_key ≠ "" ∧ 0 < c.dimension ∧ 1 ≤ c.batch_size ∧ c.batch_size ≤ 100 ∧
        path_exists (expanduser c.vault_path) = true)) ∧
    (c.pinecone_api_key = "" →
      post_init expanduser path_exists c = .error "PINECONE_API_KEY is required") ∧
    (c.pinecone_api_key ≠ "" → c.dimension ≤ 0 →
      post_init expanduser path_exists c = .error "Dimension must be positive") ∧
    (c.pinecone_api_key ≠ "" → 0 < c.dimension → (c.batch_size ≤ 0 ∨ 100 < c.batch_size) →
      post_init expanduser path_exists c = .error "Batch size must be between 1 and 100") ∧
    (c.pinecone_api_key ≠ "" → 0 < c.dimension → 1 ≤ c.batch_size → c.batch_size ≤ 100 →
      path_exists (expanduser c.vault_path) = false →
      post_init expanduser path_exists c
        = .error ("Vault path does not exist: " ++ expanduser c.vault_path)) := by
  refine ⟨?_, ?_, ?_, ?_, ?_⟩
  · unfold post_init
    split_ifs with h1 h2 h3
    · exact iff_of_false (by simp [Except.isOk, Except.toBool])
        (fun h => absurd h1 h.1)
    · exact iff_of_false (by simp [Except.isOk, Except.toBool])
        (fun h => by have := h.2.1; omega)
    · exact iff_of_false (by simp [Except.isOk, Except.toBool])
        (fun h => by
          have hb1 := h.2.2.1
          have hb2 := h.2.2.2.1
          rcases h3 with hb | hb <;> omega)
    · show (if ¬ (path_exists (expanduser c.vault_path) = true) then
            Except.error ("Vault path does not exist: " ++ expanduser c.vault_path)
          else
            Except.ok { c with vault_path := expanduser c.vault_path }).isOk = true
        ↔ _
      by_cases hp : path_exists (expanduser c.vault_path) = true
      · rw [if_neg (by simp [hp])]
        exact iff_of_true rfl ⟨h1, by omega, by omega, by omega, hp⟩
      · rw [if_pos hp]
        exact iff_of_false (by simp [Except.isOk, Except.toBool])
          (fun h => hp h.2.2.2.2)
  · intro hk
    unfold post_init
    rw [if_pos hk]
  · intro hk hd
    unfold post_init
    rw [if_neg hk, if_pos hd]
  · intro hk hd hb
    unfold post_init
    rw [if_neg hk, if_neg (by omega : ¬ c.dimension ≤ 0), if_pos hb]
  · intro hk hd hb1 hb2 hp
    unfold post_init
    rw [if_neg hk, if_neg (by omega : ¬ c.dimension ≤ 0),
      if_neg (by rintro (h | h) <;> omega :
        ¬ (c.batch_size ≤ 0 ∨ c.batch_size > 100))]
    show (if ¬ (path_exists (expanduser c.vault_path) = true) then
          Except.error ("Vault path does not exist: " ++ expanduser c.vault_path)
        else
          Except.ok { c with vault_path := expanduser c.vault_path })
      = Except.error ("Vault path does not exist: " ++ expanduser c.vault_path)
    rw [if_pos (by simp [hp])]

/-- Witness for C9_config_validation: the default configuration with a
non-empty key over an existing path validates. -/
theorem C9_witness :
    (post_init (fun s => s) (fun _ => true) { pinecone_api_key := "k" }).isOk = true :=
  ((C9_config_validation (fun s => s) (fun _ => true) { pinecone_api_key := "k" }).1).mpr
    ⟨by decide, by decide, by decide, by decide, rfl⟩

end Claims
